import Mathlib

/-!
Verification development for the `simple_fastqc` FastQC-report parser
(`src/simple_fastqc/simple_fastqc.py`).

The Python source is shallowly embedded below: each Python function of the
core (the line-oriented report parser `FastQCResults.parse_from_file`, the
module registry `FastQCResults.module_classes`, the three `from_module`
interpreters, and `read_csv_or_empty`) becomes an executable Lean
definition, with Python exceptions modelled as an explicit error type and
Python `dict` as an association list with Python's insertion-order
semantics (update-in-place on existing keys, append on new keys).

Modelling notes for Python builtins and libraries used by the source:
* `str.rstrip` / `str.strip` are modelled over the ASCII whitespace
  characters space, tab, newline, carriage return, vertical tab and form
  feed (Unicode whitespace beyond these is not modelled).
* `str.splitlines` is modelled for the line separator `'\n'` (the reports
  and bodies handled here are joined with `'\n'`; `'\r'` and the rarer
  Unicode line separators are not modelled).
* `int(s)` is modelled with optional surrounding whitespace, an optional
  sign and decimal digits with single underscores between digits
  (non-ASCII digits are not modelled).
* the combination `int(s) == float(s)` (for an `s` accepted by `int`) is
  modelled by `floatEqInt`: the integer compares equal to its `float`
  exactly when it is representable in IEEE-754 binary64.  `float` overflow
  (integers with magnitude at least 2^1024, where CPython raises
  `OverflowError`) is not modelled and is treated as "not equal".
* `pandas.read_csv(..., sep="\t")` is modelled on its well-behaved
  fragment: blank lines are skipped (the `skip_blank_lines` default), an
  input with no non-blank line raises `EmptyDataError`, the first
  non-blank line is the header, and data rows splitting into exactly the
  header's width parse to a table of raw string cells.  Rows of deviating
  width, dtype inference, and duplicate-column mangling are not modelled;
  deviating width is mapped to a `parserError`.
-/

/-- Errors raised by the embedded Python code.  The Python source defines no
exception classes of its own; these constructors name the builtin/library
exceptions that can escape the modelled functions. -/
inductive PyError where
  /-- `IndexError`: `res[1]` on a marker line that does not split into at
  least two tab-separated fields (in particular a bare terminator line seen
  while no module is open). -/
  | indexError
  /-- `AssertionError`: the `assert l == "END_MODULE"` in the parse loop,
  hit when a marker line other than the terminator is seen while a module
  is already open. -/
  | assertionError
  /-- `ValueError` from `dict(...)`: a Basic Statistics body line whose
  tab-split does not have exactly two fields. -/
  | valueError
  /-- `KeyError`: a missing dictionary key (the `data_dict["##FastQC"]`
  access, and missing-module lookup on a result set). -/
  | keyError (k : String)
  /-- `pandas.errors.EmptyDataError`: `read_csv` on data with no non-blank
  line. -/
  | emptyDataError
  /-- `pandas.errors.ParserError`: `read_csv` on tabular data whose rows do
  not match the header's width (modelled fragment). -/
  | parserError
deriving DecidableEq, Repr

/-- The spec's `ProtocolViolationError` taxonomy entry ("the report's
module-marker structure is inconsistent").  The source defines no such
class; the parser's marker-structure violations surface as the
`AssertionError` of the explicit `assert` and as the `IndexError` of the
`res[1]` access on a malformed marker line. -/
def isProtocolViolation : PyError → Bool
  | .indexError => true
  | .assertionError => true
  | _ => false

/-- The spec's `ModuleNotFoundError` taxonomy entry: a module-name lookup on
a result set raises Python's `KeyError` for that name. -/
def isModuleNotFound : PyError → Bool
  | .keyError _ => true
  | _ => false

/-! ### String primitives (Python builtins) -/

/-- Python whitespace characters stripped by `str.rstrip` (ASCII fragment). -/
def pyWs (c : Char) : Bool :=
  c == ' ' || c == '\t' || c == '\n' || c == '\r' || c == '\x0b' || c == '\x0c'

/-- Remove trailing whitespace from a character list. -/
def rstripList (cs : List Char) : List Char :=
  (cs.reverse.dropWhile pyWs).reverse

/-- Python `str.rstrip()`. -/
def pyRstrip (s : String) : String :=
  ⟨rstripList s.data⟩

/-- Remove leading and trailing whitespace from a character list
(Python `str.strip()`). -/
def stripList (cs : List Char) : List Char :=
  rstripList (cs.dropWhile pyWs)

/-- Python `s.startswith(">>")`. -/
def startsGtGt (s : String) : Bool :=
  match s.data with
  | '>' :: '>' :: _ => true
  | _ => false

/-- Python `s.removeprefix(">>")`. -/
def dropGtGt (s : String) : String :=
  match s.data with
  | '>' :: '>' :: rest => ⟨rest⟩
  | _ => s

/-- Python `s.startswith("#")`. -/
def startsHash (s : String) : Bool :=
  match s.data with
  | '#' :: _ => true
  | _ => false

/-- Python `s.removeprefix("#")` (used by the `read_csv` column rename). -/
def stripHash (s : String) : String :=
  match s.data with
  | '#' :: rest => ⟨rest⟩
  | _ => s

/-- Python `s.split("\t")` on character lists. -/
def splitTabsList : List Char → List (List Char)
  | [] => [[]]
  | '\t' :: rest => [] :: splitTabsList rest
  | c :: rest =>
    match splitTabsList rest with
    | p :: ps => (c :: p) :: ps
    | [] => [[c]]

/-- Python `s.split("\t")`. -/
def splitTabs (s : String) : List String :=
  (splitTabsList s.data).map String.mk

/-- Helper for `pySplitlines`: cut a non-empty character list at `'\n'`,
dropping a final empty piece produced by a trailing newline. -/
def splitlinesAux : List Char → List Char → List String
  | cur, [] => [String.mk cur.reverse]
  | cur, '\n' :: [] => [String.mk cur.reverse]
  | cur, '\n' :: c :: rest => String.mk cur.reverse :: splitlinesAux [] (c :: rest)
  | cur, c :: rest => splitlinesAux (c :: cur) rest

/-- Python `str.splitlines()` (newline separator only; see module notes). -/
def pySplitlines (s : String) : List String :=
  match s.data with
  | [] => []
  | cs => splitlinesAux [] cs

/-- Python `"\n".join(lines)`. -/
def joinNl : List String → String
  | [] => ""
  | [s] => s
  | s :: rest => s ++ "\n" ++ joinNl rest

/-! ### Python `int` / `float` coercion model -/

/-- Value of a decimal digit character. -/
def digitVal (c : Char) : Nat := c.toNat - 48

/-- Consume the remaining characters of a Python integer literal after its
first digit: decimal digits with single underscores allowed between
digits. -/
def digRest (acc : Nat) : List Char → Option Nat
  | [] => some acc
  | '_' :: c :: rest => if c.isDigit then digRest (acc * 10 + digitVal c) rest else none
  | '_' :: [] => none
  | c :: rest => if c.isDigit then digRest (acc * 10 + digitVal c) rest else none

/-- Python `int(s)`: strip whitespace, optional sign, decimal digits with
single underscores between digits; `none` models `ValueError`. -/
def pyIntOfString? (s : String) : Option Int :=
  match stripList s.data with
  | '+' :: c :: rest => if c.isDigit then (digRest (digitVal c) rest).map Int.ofNat else none
  | '-' :: c :: rest =>
    if c.isDigit then (digRest (digitVal c) rest).map (fun n => -(n : Int)) else none
  | c :: rest => if c.isDigit then (digRest (digitVal c) rest).map Int.ofNat else none
  | [] => none

/-- Whether the comparison `n == float(s)` succeeds in Python when `s` is a
string that `int`-parses to `n`: the comparison is exact, so it holds
precisely when `n` is representable in IEEE-754 binary64 (see module notes
for the unmodelled overflow corner). -/
def floatEqInt (n : Int) : Bool :=
  let a := n.natAbs
  if a < 2 ^ 53 then true
  else if a < 2 ^ 1024 then a % 2 ^ (Nat.log2 a - 52) == 0
  else false

/-! ### Data model -/

/-- A value stored in the Basic Statistics dictionary: Python
`Union[int, str]`. -/
inductive PyVal where
  | int (n : Int)
  | str (s : String)
deriving DecidableEq, Repr

/-- A parsed table, modelling the `pandas.DataFrame` fragment used here:
column names plus rows of raw string cells. -/
structure PTable where
  columns : List String
  rows : List (List String)
deriving DecidableEq, Repr

/-- The `data` attribute of a structured module: a raw string for the base
`FastQCModule`, an optional dataframe for `OverrepresentedSequencesModule`,
a key-value dictionary for `BasicStatisticsModule`. -/
inductive ModuleData where
  | raw (s : String)
  | table (t : Option PTable)
  | fields (d : List (String × PyVal))
deriving DecidableEq, Repr

/-- A structured module as produced by one of the `from_module`
constructors: the Python `FastQCModule` (or subclass) instance with its
`name`, `data` and `status` attributes. -/
structure FastQCModule where
  name : String
  data : ModuleData
  status : String
deriving DecidableEq, Repr

/-- The raw module record accumulated by the parser before interpretation:
a plain `FastQCModule` whose `data` is still the joined body text. -/
structure RawModule where
  name : String
  data : String
  status : String
deriving DecidableEq, Repr

/-! ### Python `dict` model (insertion-ordered association list) -/

/-- Python `d[k]` as an option: first (and, for dicts built here, only)
binding of `k`. -/
def dGet? {α : Type} : List (String × α) → String → Option α
  | [], _ => none
  | (k', v) :: rest, k => if k' = k then some v else dGet? rest k

/-- Python `k in d`. -/
def dHasKey {α : Type} : List (String × α) → String → Bool
  | [], _ => false
  | (k', _) :: rest, k => if k' = k then true else dHasKey rest k

/-- Python `d[k] = v`: update in place when the key exists (preserving its
position), append otherwise. -/
def dInsert {α : Type} (d : List (String × α)) (k : String) (v : α) : List (String × α) :=
  if dHasKey d k then d.map (fun p => if p.1 = k then (k, v) else p)
  else d ++ [(k, v)]

/-- Python `del d[k]`. -/
def dDelete {α : Type} : List (String × α) → String → List (String × α)
  | [], _ => []
  | (k', v) :: rest, k => if k' = k then dDelete rest k else (k', v) :: dDelete rest k

/-! ### Interpreters (`from_module` constructors) -/

/-- Source `FastQCModule.from_module`: the default interpreter, a field-for-field
copy of the record (`cls(module.name, module.data, module.status)`).  It
cannot fail; the `Except` is only for uniformity with the registry. -/
def FastQCModule_from_module (r : RawModule) : Except PyError FastQCModule :=
  .ok ⟨r.name, .raw r.data, r.status⟩

/-- Source `read_csv_or_empty`: `None` for empty data, else the modelled
`pandas.read_csv(..., sep="\t")` with one leading `'#'` stripped from each
column name by the `rename`. -/
def read_csv_or_empty (data : String) : Except PyError (Option PTable) :=
  if data = "" then .ok none
  else
    match (pySplitlines data).filter (fun l => l != "") with
    | [] => .error .emptyDataError
    | h :: rest =>
      let cols := (splitTabs h).map stripHash
      let rows := rest.map splitTabs
      if rows.all (fun r => r.length = cols.length) then .ok (some ⟨cols, rows⟩)
      else .error .parserError

/-- Source `OverrepresentedSequencesModule.from_module`: parse the record's data
with `read_csv_or_empty`, keep name and status. -/
def OverrepresentedSequencesModule_from_module (r : RawModule) : Except PyError FastQCModule :=
  (read_csv_or_empty r.data).map fun t => ⟨r.name, .table t, r.status⟩

/-- Build the Basic Statistics dictionary:
`dict(l.split("\t") for l in module.data.splitlines())`.  A line whose
tab-split has not exactly two fields raises `ValueError`. -/
def buildDictAux (d : List (String × PyVal)) : List String → Except PyError (List (String × PyVal))
  | [] => .ok d
  | l :: rest =>
    match splitTabs l with
    | [k, v] => buildDictAux (dInsert d k (.str v)) rest
    | _ => .error .valueError

/-- The numeric coercion applied to one remaining Basic Statistics value:
`int(v)` must succeed, and then the value is replaced by that integer only
when `int(v) == float(v)`; any `ValueError` is swallowed, leaving the text. -/
def coerceVal (v : String) : PyVal :=
  match pyIntOfString? v with
  | some n => if floatEqInt n then .int n else .str v
  | none => .str v

/-- One iteration of the Basic Statistics key loop: delete comment-marked
keys, otherwise attempt the numeric coercion of the value in place. -/
def processKey (d : List (String × PyVal)) (k : String) : List (String × PyVal) :=
  if startsHash k then dDelete d k
  else
    match dGet? d k with
    | some (.str v) =>
      match pyIntOfString? v with
      | some n => if floatEqInt n then dInsert d k (.int n) else d
      | none => d
    | _ => d

/-- The body of `BasicStatisticsModule.from_module` on the record's body
lines: build the dictionary, rehome `data_dict["##FastQC"]` under
`"FastQC"` (a `KeyError` when absent), then run the key loop over the
snapshot of the keys. -/
def basicStatsFromLines (ls : List String) : Except PyError (List (String × PyVal)) :=
  match buildDictAux [] ls with
  | .error e => .error e
  | .ok d0 =>
    match dGet? d0 "##FastQC" with
    | none => .error (.keyError "##FastQC")
    | some v =>
      let d1 := dInsert d0 "FastQC" v
      .ok (List.foldl processKey d1 (d1.map Prod.fst))

/-- Source `BasicStatisticsModule.from_module` on the raw body string. -/
def basicStatsFields (data : String) : Except PyError (List (String × PyVal)) :=
  basicStatsFromLines (pySplitlines data)

/-- Source `BasicStatisticsModule.from_module`: interpret the record's data as a
key-value dictionary, keep name and status. -/
def BasicStatisticsModule_from_module (r : RawModule) : Except PyError FastQCModule :=
  (basicStatsFields r.data).map fun d => ⟨r.name, .fields d, r.status⟩

/-- Source `FastQCResults.module_classes.get(name, FastQCModule)`: the registry,
with the base class as the documented default for unmapped names. -/
def module_classes (name : String) : RawModule → Except PyError FastQCModule :=
  if name = "Overrepresented sequences" then OverrepresentedSequencesModule_from_module
  else if name = "Basic Statistics" then BasicStatisticsModule_from_module
  else FastQCModule_from_module

/-- Registry dispatch on a freshly closed record, as performed by the parse
loop: `module_classes.get(mod.name, FastQCModule).from_module(mod)`. -/
def interpretModule (name data status : String) : Except PyError FastQCModule :=
  module_classes name ⟨name, data, status⟩

/-! ### Report parser (`FastQCResults.parse_from_file`) -/

/-- The parse loop of `FastQCResults.parse_from_file` over the report's
lines.  `mod` is the pending `(name, status)` pair (`None` when
outside a module), `dataLines` the accumulated (rstripped) body lines, and
`res` the result dictionary built so far. -/
def parseAux : List String → Option (String × String) → List String →
    List (String × FastQCModule) → Except PyError (List (String × FastQCModule))
  | [], _, _, res => .ok res
  | line :: rest, mod, dataLines, res =>
    let r := pyRstrip line
    if startsGtGt r then
      match mod with
      | none =>
        match splitTabs (dropGtGt r) with
        | n :: s :: _ => parseAux rest (some (n, s)) dataLines res
        | _ => .error .indexError
      | some ns =>
        if dropGtGt r = "END_MODULE" then
          match interpretModule ns.1 (joinNl dataLines) ns.2 with
          | .ok m => parseAux rest none [] (dInsert res ns.1 m)
          | .error e => .error e
        else .error .assertionError
    else parseAux rest mod (dataLines ++ [r]) res

/-- Source `FastQCResults.parse_from_file`, with the file's line iteration
modelled as the list of its lines. -/
def parse_from_file (lines : List String) : Except PyError (List (String × FastQCModule)) :=
  parseAux lines none [] []

/-- Lookup of a structured module by name on a result set:
`FastQCResults.results[name]`, raising `KeyError` when absent.  The lookup
is a pure read: it returns only the module (or the error) and leaves the
result set untouched. -/
def results_getitem (rs : List (String × FastQCModule)) (name : String) :
    Except PyError FastQCModule :=
  match dGet? rs name with
  | some m => .ok m
  | none => .error (.keyError name)

/-- Source `FastQCResults.status_dict`: project every module to its status. -/
def status_dict (rs : List (String × FastQCModule)) : List (String × String) :=
  rs.map fun p => (p.2.name, p.2.status)

/-- Modelled from the spec (claim-side comparator, not source code): the
coercion policy as the spec states it — "parse as an integer; if that
fails, parse as a floating-point number and, only if its value is
mathematically equal to some integer, store the integer instead; if both
parses fail, leave the value as text".  The float-literal grammar is
restricted to sign, decimal digits and an optional fractional part, which
covers the values at issue. -/
def pyFloatIntVal? (s : String) : Option Int :=
  match stripList s.data with
  | [] => none
  | cs =>
    let sb : Bool × List Char :=
      match cs with
      | '+' :: r => (false, r)
      | '-' :: r => (true, r)
      | r => (false, r)
    let val : List Char → Nat := fun ds => ds.foldl (fun a c => a * 10 + digitVal c) 0
    match sb.2.splitOn '.' with
    | [ip] =>
      if ip ≠ [] ∧ ip.all Char.isDigit then
        some (if sb.1 then -(val ip : Int) else (val ip : Int))
      else none
    | [ip, fp] =>
      if (ip ≠ [] ∨ fp ≠ []) ∧ ip.all Char.isDigit ∧ fp.all Char.isDigit
          ∧ fp.all (fun c => c == '0') then
        some (if sb.1 then -(val ip : Int) else (val ip : Int))
      else none
    | _ => none

/-- Modelled from the spec (claim-side comparator, not source code): the
stored value under the spec's coercion policy, to be compared against the
source's `coerceVal`. -/
def coerceSpec (v : String) : PyVal :=
  match pyIntOfString? v with
  | some n => .int n
  | none =>
    match pyFloatIntVal? v with
    | some n => .int n
    | none => .str v

/-! ### Helper lemmas -/

/-- Lines that do not begin with the module marker are appended (rstripped)
to the accumulating body, whatever the parser state: running the parse loop
over such lines just extends `dataLines`. -/
theorem parseAux_append_nonmarker (ls : List String)
    (h : ∀ l ∈ ls, startsGtGt (pyRstrip l) = false) (rest : List String)
    (mod : Option (String × String)) (acc : List String)
    (res : List (String × FastQCModule)) :
    parseAux (ls ++ rest) mod acc res = parseAux rest mod (acc ++ ls.map pyRstrip) res := by
  induction ls generalizing acc with
  | nil => simp
  | cons l ls ih =>
    have hl : startsGtGt (pyRstrip l) = false := h l (List.mem_cons_self _ _)
    have hrest : ∀ x ∈ ls, startsGtGt (pyRstrip x) = false :=
      fun x hx => h x (List.mem_cons_of_mem _ hx)
    simp only [List.cons_append, parseAux, hl, Bool.false_eq_true, if_false, List.append_eq]
    rw [ih hrest (acc ++ [pyRstrip l])]
    simp

/-- Registry dispatch for a name mapped by neither registry entry reduces to
the base-class copy constructor. -/
theorem interpret_default (name data status : String)
    (h1 : name ≠ "Overrepresented sequences") (h2 : name ≠ "Basic Statistics") :
    interpretModule name data status = .ok ⟨name, .raw data, status⟩ := by
  simp [interpretModule, module_classes, h1, h2, FastQCModule_from_module]

/-- Lookup of an absent key returns `none`. -/
theorem dGet?_eq_none {α : Type} (d : List (String × α)) (k : String)
    (h : k ∉ d.map Prod.fst) : dGet? d k = none := by
  induction d with
  | nil => rfl
  | cons p rest ih =>
    simp only [List.map_cons, List.mem_cons] at h
    push_neg at h
    simp only [dGet?]
    rw [if_neg (fun e => h.1 e.symm)]
    exact ih h.2

/-- Mapping a key-preserving function over a dictionary preserves
`dHasKey`. -/
theorem dHasKey_map_keyfix {α : Type} (d : List (String × α)) (f : String × α → String × α)
    (hf : ∀ p, (f p).1 = p.1) (k : String) : dHasKey (d.map f) k = dHasKey d k := by
  induction d with
  | nil => rfl
  | cons p rest ih =>
    simp only [List.map_cons, dHasKey, hf p]
    rw [ih]

/-- Key membership distributes over dictionary concatenation. -/
theorem dHasKey_append {α : Type} (d d' : List (String × α)) (k : String) :
    dHasKey (d ++ d') k = (dHasKey d k || dHasKey d' k) := by
  induction d with
  | nil => rfl
  | cons p rest ih =>
    simp only [List.cons_append, dHasKey]
    by_cases h : p.1 = k
    · simp [h]
    · simp only [if_neg h]
      exact ih

/-- Key membership after a Python dictionary insert. -/
theorem dHasKey_dInsert {α : Type} (d : List (String × α)) (a k : String) (v : α) :
    dHasKey (dInsert d a v) k = true ↔ dHasKey d k = true ∨ k = a := by
  unfold dInsert
  by_cases hd : dHasKey d a
  · rw [if_pos hd]
    rw [dHasKey_map_keyfix d _ (fun p => by by_cases hp : p.1 = a <;> simp [hp])]
    constructor
    · exact Or.inl
    · rintro (h | h)
      · exact h
      · subst h; exact hd
  · rw [if_neg hd, dHasKey_append]
    simp only [dHasKey, Bool.or_eq_true]
    constructor
    · rintro (h | h)
      · exact Or.inl h
      · by_cases he : a = k
        · exact Or.inr he.symm
        · rw [if_neg he] at h; cases h
    · rintro (h | h)
      · exact Or.inl h
      · subst h; exact Or.inr (by rw [if_pos rfl])

/-- Lookup succeeds exactly on present keys. -/
theorem dGet?_isSome {α : Type} (d : List (String × α)) (k : String) :
    (dGet? d k).isSome = dHasKey d k := by
  induction d with
  | nil => rfl
  | cons p rest ih =>
    simp only [dGet?, dHasKey]
    by_cases h : p.1 = k
    · simp [h]
    · simp only [if_neg h]
      exact ih

/-- Building the Basic Statistics dictionary succeeds exactly when every
line's tab-split has exactly two fields. -/
theorem buildDictAux_ok_iff (ls : List String) : ∀ d : List (String × PyVal),
    (∃ d', buildDictAux d ls = .ok d') ↔ ∀ l ∈ ls, (splitTabs l).length = 2 := by
  induction ls with
  | nil => intro d; simp [buildDictAux]
  | cons l ls ih =>
    intro d
    rcases e : splitTabs l with - | ⟨a, - | ⟨b, - | ⟨c, t⟩⟩⟩
    · simp only [buildDictAux, e, List.forall_mem_cons, List.length_nil]
      constructor
      · rintro ⟨d', h⟩; cases h
      · rintro ⟨h1, -⟩; cases h1
    · simp only [buildDictAux, e, List.forall_mem_cons, List.length_cons, List.length_nil]
      constructor
      · rintro ⟨d', h⟩; cases h
      · rintro ⟨h1, -⟩; cases h1
    · simp only [buildDictAux, e, List.forall_mem_cons, List.length_cons, List.length_nil]
      rw [ih (dInsert d a (.str b))]
      simp
    · simp only [buildDictAux, e, List.forall_mem_cons, List.length_cons]
      constructor
      · rintro ⟨d', h⟩; cases h
      · rintro ⟨h1, -⟩; omega

/-- The keys of a successfully built Basic Statistics dictionary are the
seed's keys plus the first tab-field of each body line. -/
theorem buildDictAux_hasKey (ls : List String) : ∀ d d' : List (String × PyVal),
    buildDictAux d ls = .ok d' → ∀ k : String,
    (dHasKey d' k = true ↔ dHasKey d k = true ∨ ∃ l ∈ ls, (splitTabs l).head? = some k) := by
  induction ls with
  | nil =>
    intro d d' h k
    simp only [buildDictAux, Except.ok.injEq] at h
    subst h
    simp
  | cons l ls ih =>
    intro d d' h k
    rcases e : splitTabs l with - | ⟨a, - | ⟨b, - | ⟨c, t⟩⟩⟩ <;>
      rw [buildDictAux, e] at h
    · cases h
    · cases h
    · have := ih (dInsert d a (.str b)) d' h k
      rw [this, dHasKey_dInsert]
      simp only [List.mem_cons, e, List.head?_cons]
      constructor
      · rintro ((h1 | h1) | h1)
        · exact Or.inl h1
        · exact Or.inr ⟨l, Or.inl rfl, by rw [e]; simpa using h1.symm⟩
        · obtain ⟨x, hx, hhx⟩ := h1
          exact Or.inr ⟨x, Or.inr hx, hhx⟩
      · rintro (h1 | ⟨x, hx | hx, hhx⟩)
        · exact Or.inl (Or.inl h1)
        · subst hx
          rw [e] at hhx
          simp only [List.head?_cons, Option.some.injEq] at hhx
          exact Or.inl (Or.inr hhx.symm)
        · exact Or.inr ⟨x, hx, hhx⟩
    · cases h

/-- The modelled `read_csv_or_empty` returns `ok none` exactly on the empty
string (non-empty data yields either a table or an error, never `None`). -/
theorem read_csv_ok_none_iff (data : String) :
    read_csv_or_empty data = .ok none ↔ data = "" := by
  constructor
  · intro h
    by_contra hne
    unfold read_csv_or_empty at h
    rw [if_neg hne] at h
    rcases hm : (pySplitlines data).filter (fun l => l != "") with - | ⟨hd, tl⟩
    · rw [hm] at h; cases h
    · rw [hm] at h
      dsimp only at h
      split at h
      · simp at h
      · cases h
  · intro h
    subst h
    rfl

/-! ### Claim theorems -/

/-- Claim C1, counterexample: a report that opens module `B` and reaches end
of input without a terminator does NOT fail — `parse_from_file` returns
successfully, and it returns the partial Result Set holding the earlier,
properly closed module `A` (the claim asserts failure with no partial
result). -/
theorem c1_counterexample :
    parse_from_file [">>A\tpass", ">>END_MODULE", ">>B\tfail", "x"]
      = .ok [("A", ⟨"A", ModuleData.raw "", "pass"⟩)] := rfl

/-- Claim C1, amended: when the input ends while the parser is still
Inside-module (no remaining line is a `>>` marker line), the parse loop
raises no error and returns exactly the Result Set accumulated so far; the
pending module and its body lines are silently discarded. -/
theorem c1_amended (ls : List String) (p : String × String) (acc : List String)
    (res : List (String × FastQCModule))
    (h : ∀ l ∈ ls, startsGtGt (pyRstrip l) = false) :
    parseAux ls (some p) acc res = .ok res := by
  have h2 := parseAux_append_nonmarker ls h [] (some p) acc res
  simpa [parseAux] using h2

/-- Witness for `c1_amended`: inside the unterminated module `B`, with module
`A` already closed, the parse returns the partial Result Set. -/
theorem c1_amended_witness :
    parseAux ["x"] (some ("B", "fail")) [] [("A", ⟨"A", ModuleData.raw "", "pass"⟩)]
      = .ok [("A", ⟨"A", ModuleData.raw "", "pass"⟩)] :=
  c1_amended ["x"] ("B", "fail") [] _ (by decide)

/-- Claim C2, counterexample: the value `"2.0"` does not `int`-parse, so the
code leaves it as the text `"2.0"`; the spec's policy (`coerceSpec`, which
falls back to the float parse) would store the integer `2` instead.  The
claimed "otherwise parse as float" branch is never taken by the code. -/
theorem c2_counterexample :
    basicStatsFields "##FastQC\t0.11.9\nAvg\t2.0"
      = .ok [("Avg", PyVal.str "2.0"), ("FastQC", PyVal.str "0.11.9")]
    ∧ coerceSpec "2.0" = PyVal.int 2
    ∧ PyVal.str "2.0" ≠ PyVal.int 2 := by
  refine ⟨rfl, rfl, by decide⟩

/-- Claim C2, amended: for every remaining field value `v`, the stored value
is the integer parse `n` of `v` only when `v` parses as an integer AND
`float(v)` compares equal to `n` (which holds whenever `|n| < 2^53`);
in every other case — including values such as `"2.0"` that parse only as
floats — the original text `v` is kept, and coercion failure never raises:
the interpreter still succeeds. -/
theorem c2_amended (l1 l2 k v ver : String)
    (h1 : splitTabs l1 = ["##FastQC", ver])
    (h2 : splitTabs l2 = [k, v])
    (hk : startsHash k = false)
    (hkF : k ≠ "FastQC") :
    basicStatsFromLines [l1, l2] = .ok [(k, coerceVal v), ("FastQC", coerceVal ver)] := by
  have hknFQ : ("##FastQC" : String) ≠ k := fun e => by
    rw [← e] at hk
    exact absurd hk (by decide)
  have i2 : dInsert [("##FastQC", PyVal.str ver)] k (PyVal.str v)
      = [("##FastQC", PyVal.str ver), (k, PyVal.str v)] := by
    unfold dInsert
    rw [show dHasKey [("##FastQC", PyVal.str ver)] k = false from by
      simp [dHasKey, hknFQ]]
    rfl
  have e1 : buildDictAux [] [l1, l2]
      = .ok [("##FastQC", PyVal.str ver), (k, PyVal.str v)] := by
    simp only [buildDictAux, h1, h2]
    rw [show dInsert ([] : List (String × PyVal)) "##FastQC" (PyVal.str ver)
        = [("##FastQC", PyVal.str ver)] from rfl, i2]
  have g1 : dGet? [("##FastQC", PyVal.str ver), (k, PyVal.str v)] "##FastQC"
      = some (PyVal.str ver) := by
    simp [dGet?]
  have i3 : dInsert [("##FastQC", PyVal.str ver), (k, PyVal.str v)] "FastQC" (PyVal.str ver)
      = [("##FastQC", PyVal.str ver), (k, PyVal.str v), ("FastQC", PyVal.str ver)] := by
    unfold dInsert
    rw [show dHasKey [("##FastQC", PyVal.str ver), (k, PyVal.str v)] "FastQC" = false from by
      simp [dHasKey, hkF]]
    rfl
  have pk1 : processKey
      [("##FastQC", PyVal.str ver), (k, PyVal.str v), ("FastQC", PyVal.str ver)] "##FastQC"
      = [(k, PyVal.str v), ("FastQC", PyVal.str ver)] := by
    unfold processKey
    rw [if_pos (show startsHash "##FastQC" = true from rfl)]
    simp [dDelete, Ne.symm hknFQ]
  have pk2 : processKey [(k, PyVal.str v), ("FastQC", PyVal.str ver)] k
      = [(k, coerceVal v), ("FastQC", PyVal.str ver)] := by
    unfold processKey
    simp only [hk, Bool.false_eq_true, if_false]
    rw [show dGet? [(k, PyVal.str v), ("FastQC", PyVal.str ver)] k = some (PyVal.str v) from by
      simp [dGet?]]
    dsimp only
    simp only [coerceVal]
    rcases hv : pyIntOfString? v with - | n
    · rfl
    · dsimp only
      by_cases hf : floatEqInt n
      · rw [if_pos hf, if_pos hf]
        simp [dInsert, dHasKey, Ne.symm hkF]
      · rw [if_neg hf, if_neg hf]
  have pk3 : processKey [(k, coerceVal v), ("FastQC", PyVal.str ver)] "FastQC"
      = [(k, coerceVal v), ("FastQC", coerceVal ver)] := by
    unfold processKey
    rw [if_neg (show ¬ startsHash "FastQC" = true from by decide)]
    rw [show dGet? [(k, coerceVal v), ("FastQC", PyVal.str ver)] "FastQC"
        = some (PyVal.str ver) from by simp [dGet?, hkF]]
    dsimp only
    conv_rhs => rw [show coerceVal ver = (match pyIntOfString? ver with
      | some n => if floatEqInt n then PyVal.int n else PyVal.str ver
      | none => PyVal.str ver) from rfl]
    rcases hv : pyIntOfString? ver with - | n
    · rfl
    · dsimp only
      by_cases hf : floatEqInt n
      · rw [if_pos hf, if_pos hf]
        simp [dInsert, dHasKey, hkF]
      · rw [if_neg hf, if_neg hf]
  simp only [basicStatsFromLines, e1, g1, i3]
  simp only [List.map_cons, List.map_nil, List.foldl_cons, List.foldl_nil]
  rw [pk1, pk2, pk3]

/-- Witness for `c2_amended` at the concrete body of claim C5's shape:
`"10000"` int-parses and is binary64-exact, so it is stored as the integer
`10000`; `"0.11.9"` fails the int parse and stays text. -/
theorem c2_amended_witness :
    basicStatsFromLines ["##FastQC\t0.11.9", "Total Sequences\t10000"]
      = .ok [("Total Sequences", PyVal.int 10000), ("FastQC", PyVal.str "0.11.9")] := by
  have h := c2_amended "##FastQC\t0.11.9" "Total Sequences\t10000"
    "Total Sequences" "10000" "0.11.9" rfl rfl rfl (by decide)
  exact h.trans (by rfl)

/-- Claim C3, counterexample: the body `"a\tb"` has a tab in its only line,
yet the interpreter fails (`KeyError` on the missing `##FastQC` entry); and
the line `"a\tb\tc"` with multiple tabs makes it fail with `ValueError`
(the split is on every tab, not the first), contradicting both "succeeds
whenever every line contains a tab" and "including lines with multiple
tabs". -/
theorem c3_counterexample :
    splitTabs "a\tb" = ["a", "b"]
    ∧ basicStatsFields "a\tb" = .error (.keyError "##FastQC")
    ∧ basicStatsFields "##FastQC\t0\na\tb\tc" = .error .valueError := by
  refine ⟨rfl, rfl, rfl⟩

/-- Claim C3, amended: the Basic Statistics interpreter succeeds on a list of
body lines if and only if every line's tab-split has exactly two fields
(one tab; a tab-less or multi-tab line raises `ValueError`) AND some line's
first field is exactly `##FastQC` (otherwise the rehoming access raises
`KeyError`). -/
theorem c3_amended (ls : List String) :
    (∃ d, basicStatsFromLines ls = .ok d) ↔
      ((∀ l ∈ ls, (splitTabs l).length = 2)
        ∧ ∃ l ∈ ls, (splitTabs l).head? = some "##FastQC") := by
  cases hbd : buildDictAux [] ls with
  | error e =>
    have hno : ¬ ∀ l ∈ ls, (splitTabs l).length = 2 := by
      rw [← buildDictAux_ok_iff ls []]
      rintro ⟨d', h⟩
      rw [hbd] at h
      cases h
    simp only [basicStatsFromLines, hbd]
    constructor
    · rintro ⟨d, h⟩; cases h
    · rintro ⟨h1, -⟩; exact absurd h1 hno
  | ok d0 =>
    have hok : ∀ l ∈ ls, (splitTabs l).length = 2 :=
      (buildDictAux_ok_iff ls []).mp ⟨d0, hbd⟩
    have hkeys := buildDictAux_hasKey ls [] d0 hbd "##FastQC"
    cases hg : dGet? d0 "##FastQC" with
    | none =>
      have hf : dHasKey d0 "##FastQC" = false := by
        have hs := dGet?_isSome d0 "##FastQC"
        rw [hg] at hs
        exact hs.symm
      simp only [basicStatsFromLines, hbd, hg]
      constructor
      · rintro ⟨d, h⟩; cases h
      · rintro ⟨-, hex⟩
        have ht : dHasKey d0 "##FastQC" = true := hkeys.mpr (Or.inr hex)
        rw [hf] at ht
        cases ht
    | some v =>
      have ht : dHasKey d0 "##FastQC" = true := by
        have hs := dGet?_isSome d0 "##FastQC"
        rw [hg] at hs
        exact hs.symm
      simp only [basicStatsFromLines, hbd, hg]
      constructor
      · intro _
        refine ⟨hok, ?_⟩
        rcases hkeys.mp ht with h | h
        · cases h
        · exact h
      · intro _
        exact ⟨_, rfl⟩

/-- Claim C4: a terminator line seen while Outside-module makes the parse
fail (the `res[1]` access raises `IndexError`), and any `>>` marker line
other than the terminator — in particular every new module header — seen
while Inside-module makes the parse fail (the `assert` raises
`AssertionError`); both errors realize the spec's
`ProtocolViolationError`. -/
theorem c4_protocol_violation :
    (∀ (l : String) (rest acc : List String) (res : List (String × FastQCModule)),
        pyRstrip l = ">>END_MODULE" →
        parseAux (l :: rest) none acc res = .error .indexError
          ∧ isProtocolViolation .indexError = true)
    ∧ (∀ (l : String) (rest acc : List String) (res : List (String × FastQCModule))
        (p : String × String),
        startsGtGt (pyRstrip l) = true → dropGtGt (pyRstrip l) ≠ "END_MODULE" →
        parseAux (l :: rest) (some p) acc res = .error .assertionError
          ∧ isProtocolViolation .assertionError = true) := by
  constructor
  · intro l rest acc res h
    refine ⟨?_, rfl⟩
    simp only [parseAux, h]
    rfl
  · intro l rest acc res p h1 h2
    refine ⟨?_, rfl⟩
    simp only [parseAux, h1, if_true]
    rw [if_neg h2]

/-- Witness for `c4_protocol_violation`: a bare `>>END_MODULE` as the first
line, and a header `>>C\twarn` while module `B` is open. -/
theorem c4_witness :
    parseAux [">>END_MODULE"] none [] [] = .error .indexError
    ∧ parseAux [">>C\twarn"] (some ("B", "pass")) [] [] = .error .assertionError :=
  ⟨(c4_protocol_violation.1 ">>END_MODULE" [] [] [] rfl).1,
   (c4_protocol_violation.2 ">>C\twarn" [] [] [] ("B", "pass") rfl (by decide)).1⟩

/-- Claim C5: the Basic Statistics body with lines `##FastQC\t0.11.9`,
`#Encoding\tSanger` and `Total Sequences\t10000` interprets (through the
registry) to fields holding exactly `Total Sequences ↦ 10000` (coerced
integer) and `FastQC ↦ "0.11.9"` (rehomed), with every `#`-prefixed key
dropped.  The dictionary's insertion order puts `Total Sequences` before
the appended `FastQC` key. -/
theorem c5_basic_statistics_example (status : String) :
    interpretModule "Basic Statistics"
        "##FastQC\t0.11.9\n#Encoding\tSanger\nTotal Sequences\t10000" status
      = .ok ⟨"Basic Statistics",
          ModuleData.fields
            [("Total Sequences", PyVal.int 10000), ("FastQC", PyVal.str "0.11.9")],
          status⟩ := rfl

/-- Claim C6, counterexample: the raw body `"\n"` is non-empty, yet the
Overrepresented-sequences interpreter does not produce a table for it — it
fails with `EmptyDataError` (`read_csv` finds no non-blank line),
contradicting "for every non-empty raw_body it parses the body as a
tab-separated table". -/
theorem c6_counterexample :
    "\n" ≠ ""
    ∧ OverrepresentedSequencesModule_from_module ⟨"Overrepresented sequences", "\n", "pass"⟩
        = .error .emptyDataError := by
  refine ⟨by decide, rfl⟩

/-- Claim C6, amended: the interpreter returns `table = None` if and only if
the record's raw body is the empty string (a non-empty body yields a table
or an error, never `None` — bodies with no non-blank line fail with
`EmptyDataError`); and the header-only body `#Sequence\tCount\tPercentage`
yields a zero-row table whose column names have the leading `#` stripped. -/
theorem c6_amended :
    (∀ r : RawModule,
      OverrepresentedSequencesModule_from_module r
          = .ok ⟨r.name, ModuleData.table none, r.status⟩ ↔ r.data = "")
    ∧ (∀ name status : String,
        OverrepresentedSequencesModule_from_module
            ⟨name, "#Sequence\tCount\tPercentage", status⟩
          = .ok ⟨name,
              ModuleData.table (some ⟨["Sequence", "Count", "Percentage"], []⟩), status⟩) := by
  constructor
  · intro r
    constructor
    · intro h
      unfold OverrepresentedSequencesModule_from_module at h
      cases hr : read_csv_or_empty r.data with
      | ok t =>
        rw [hr] at h
        simp only [Except.map, Except.ok.injEq, FastQCModule.mk.injEq] at h
        obtain ⟨-, ht, -⟩ := h
        simp only [ModuleData.table.injEq] at ht
        rw [← read_csv_ok_none_iff, hr, ht]
      | error e =>
        rw [hr] at h
        simp [Except.map] at h
    · intro h
      unfold OverrepresentedSequencesModule_from_module
      rw [(read_csv_ok_none_iff r.data).mpr h]
      rfl
  · intro name status
    rfl

/-- Claim C7: any module name mapped by neither registry entry (i.e. any
name other than "Overrepresented sequences" and "Basic Statistics") is
interpreted by the default `FastQCModule.from_module`, which always
succeeds and copies name, raw body and status unchanged. -/
theorem c7_default_interpreter (name data status : String)
    (h1 : name ≠ "Overrepresented sequences") (h2 : name ≠ "Basic Statistics") :
    interpretModule name data status = .ok ⟨name, .raw data, status⟩ :=
  interpret_default name data status h1 h2

/-- Witness for `c7_default_interpreter` at the unmapped name
"Custom Module". -/
theorem c7_witness :
    interpretModule "Custom Module" "raw body" "warn"
      = .ok ⟨"Custom Module", ModuleData.raw "raw body", "warn"⟩ :=
  c7_default_interpreter "Custom Module" "raw body" "warn" (by decide) (by decide)

/-- Claim C8: whichever of the three `from_module` interpreters produced a
structured module from a record, the module's `name` and `status` equal the
record's. -/
theorem c8_name_status_preserved (r : RawModule) (m : FastQCModule)
    (h : FastQCModule_from_module r = .ok m
       ∨ OverrepresentedSequencesModule_from_module r = .ok m
       ∨ BasicStatisticsModule_from_module r = .ok m) :
    m.name = r.name ∧ m.status = r.status := by
  rcases h with h | h | h
  · simp only [FastQCModule_from_module, Except.ok.injEq] at h
    subst h; exact ⟨rfl, rfl⟩
  · unfold OverrepresentedSequencesModule_from_module at h
    cases hr : read_csv_or_empty r.data with
    | ok t => rw [hr] at h; simp only [Except.map, Except.ok.injEq] at h; subst h; exact ⟨rfl, rfl⟩
    | error e => rw [hr] at h; simp [Except.map] at h
  · unfold BasicStatisticsModule_from_module at h
    cases hr : basicStatsFields r.data with
    | ok d => rw [hr] at h; simp only [Except.map, Except.ok.injEq] at h; subst h; exact ⟨rfl, rfl⟩
    | error e => rw [hr] at h; simp [Except.map] at h

/-- Witness for `c8_name_status_preserved` via the default interpreter on a
concrete record. -/
theorem c8_witness :
    (⟨"X", ModuleData.raw "d", "pass"⟩ : FastQCModule).name = "X"
    ∧ (⟨"X", ModuleData.raw "d", "pass"⟩ : FastQCModule).status = "pass" :=
  c8_name_status_preserved ⟨"X", "d", "pass"⟩ ⟨"X", ModuleData.raw "d", "pass"⟩ (Or.inl rfl)

/-- Claim C9: looking up a name absent from a result set fails with the
`KeyError` for that name (the spec's `ModuleNotFoundError`); the lookup is
a pure read of the result set, so the set itself is unchanged and the
failure is recoverable by the caller. -/
theorem c9_missing_module_lookup (rs : List (String × FastQCModule)) (name : String)
    (h : name ∉ rs.map Prod.fst) :
    results_getitem rs name = .error (.keyError name)
    ∧ isModuleNotFound (.keyError name) = true := by
  refine ⟨?_, rfl⟩
  unfold results_getitem
  rw [dGet?_eq_none rs name h]

/-- Witness for `c9_missing_module_lookup` on a populated result set. -/
theorem c9_witness :
    results_getitem [("Basic Statistics", ⟨"Basic Statistics", ModuleData.raw "", "pass"⟩)]
        "Adapter Content"
      = .error (.keyError "Adapter Content") :=
  (c9_missing_module_lookup
    [("Basic Statistics", ⟨"Basic Statistics", ModuleData.raw "", "pass"⟩)]
    "Adapter Content" (by decide)).1

/-- Claim C10: non-marker lines `pre` read while Outside-module are neither
an error nor discarded: when the next module (header `hdr` with unmapped
name, body `body`) closes, its raw body is the newline-join of the
rstripped `pre` lines followed by the rstripped `body` lines, i.e. the
outside lines become the initial lines of that module's body. -/
theorem c10_outside_lines_accumulate
    (pre body rest : List String) (res : List (String × FastQCModule))
    (hdr name status : String) (ts : List String)
    (hpre : ∀ l ∈ pre, startsGtGt (pyRstrip l) = false)
    (hbody : ∀ l ∈ body, startsGtGt (pyRstrip l) = false)
    (hh1 : startsGtGt (pyRstrip hdr) = true)
    (hh2 : splitTabs (dropGtGt (pyRstrip hdr)) = name :: status :: ts)
    (hn1 : name ≠ "Overrepresented sequences") (hn2 : name ≠ "Basic Statistics") :
    parseAux (pre ++ hdr :: (body ++ ">>END_MODULE" :: rest)) none [] res
      = parseAux rest none []
          (dInsert res name
            ⟨name, ModuleData.raw (joinNl ((pre ++ body).map pyRstrip)), status⟩) := by
  rw [parseAux_append_nonmarker pre hpre]
  simp only [parseAux, hh1, if_true, hh2, List.nil_append]
  rw [parseAux_append_nonmarker body hbody]
  have hterm : pyRstrip ">>END_MODULE" = ">>END_MODULE" := rfl
  simp only [parseAux, hterm]
  rw [interpret_default name _ status hn1 hn2]
  simp only [List.map_append, List.append_assoc]
  rw [if_pos (show startsGtGt ">>END_MODULE" = true from rfl),
    if_pos (show dropGtGt ">>END_MODULE" = "END_MODULE" from rfl)]

/-- Witness for `c10_outside_lines_accumulate`: the outside line `hello`
becomes the first body line of module `Custom`. -/
theorem c10_witness :
    parse_from_file ["hello", ">>Custom\tpass", "world", ">>END_MODULE"]
      = .ok [("Custom", ⟨"Custom", ModuleData.raw "hello\nworld", "pass"⟩)] := by
  have h := c10_outside_lines_accumulate ["hello"] ["world"] [] [] ">>Custom\tpass"
    "Custom" "pass" [] (by decide) (by decide) rfl rfl (by decide) (by decide)
  exact h.trans rfl
